import Mathlib

/-!
Verification of the class-imbalance training notebook
(`teacher/2_dealing_with_class_imbalance.py`).

The notebook wires together: a downloaded dataset split into trainval and test
arrays, index hints for a stratified train/validation split, an
`NpArrayDataset` adapter class, a convolutional `model_fn` with `...`
(Ellipsis) blanks for the student, and an ignite training loop with
checkpointing and early-stopping handlers.  Pure library behaviour that the
notebook configures but does not implement (the ignite `EarlyStopping` and
`ModelCheckpoint` handlers, the torch layer constructors, the split the student
is asked to write) is modelled from the specification; everything else is a
direct shallow embedding of the notebook's code.
-/

namespace ClassImbalance

/-- Python values that flow through the dataset adapter: a raw numpy array
slice, or a torch tensor wrapping the same data. -/
inductive PyVal where
  | nd (data : List Nat) : PyVal
  | tensor (data : List Nat) : PyVal
deriving DecidableEq, Repr

/-- `torch.tensor`: wraps raw array data into a tensor (a tensor argument is
returned as a tensor over the same data). -/
def torch_tensor : PyVal → PyVal
  | .nd d => .tensor d
  | .tensor d => .tensor d

/-- The dataset adapter class (source lines 131-161): raw image and label
arrays together with optional image and label transforms.  The constructor
(source lines 132-142) stores its four arguments and checks nothing. -/
structure NpArrayDataset where
  images : List PyVal
  labels : List PyVal
  image_transforms : Option (PyVal → PyVal)
  label_transforms : Option (PyVal → PyVal)

/-- `__len__` (source lines 144-145): `return self.images.shape[0]`. -/
def NpArrayDataset.len (self : NpArrayDataset) : Nat :=
  self.images.length

/-- `__getitem__` (source lines 147-161): read `images[index]` and
`labels[index]`, apply each transform when it is not `None`, otherwise wrap
with `torch.tensor`, and return the pair. -/
def NpArrayDataset.getitem (self : NpArrayDataset) (index : Nat)
    (hx : index < self.images.length) (hy : index < self.labels.length) :
    PyVal × PyVal :=
  let x := self.images.get ⟨index, hx⟩
  let y := self.labels.get ⟨index, hy⟩
  let x := match self.image_transforms with
    | some t => t x
    | none => torch_tensor x
  let y := match self.label_transforms with
    | some t => t y
    | none => torch_tensor y
  (x, y)

/-- State-passing form of `__getitem__`: the call returns its result together
with the object as it stands after the call.  The method body only reads
fields and binds locals; it contains no assignment to `self`, so the object
returned is the receiver itself. -/
def NpArrayDataset.getitemS (self : NpArrayDataset) (index : Nat)
    (hx : index < self.images.length) (hy : index < self.labels.length) :
    (PyVal × PyVal) × NpArrayDataset :=
  (self.getitem index hx hy, self)

/-- C4: for every `NpArrayDataset` and in-range index, `__getitem__` returns
the pair `(x, y)` where `x` is `image_transforms images[index]` when the image
transform is set and `torch.tensor images[index]` otherwise, and symmetrically
for `y` with `label_transforms` over `labels[index]`. -/
theorem getitem_adapts_arrays (d : NpArrayDataset) (i : Nat)
    (hx : i < d.images.length) (hy : i < d.labels.length) :
    (d.image_transforms = none →
      (d.getitem i hx hy).1 = torch_tensor (d.images.get ⟨i, hx⟩)) ∧
    (∀ t, d.image_transforms = some t →
      (d.getitem i hx hy).1 = t (d.images.get ⟨i, hx⟩)) ∧
    (d.label_transforms = none →
      (d.getitem i hx hy).2 = torch_tensor (d.labels.get ⟨i, hy⟩)) ∧
    (∀ t, d.label_transforms = some t →
      (d.getitem i hx hy).2 = t (d.labels.get ⟨i, hy⟩)) := by
  refine ⟨?_, ?_, ?_, ?_⟩
  · intro h; simp [NpArrayDataset.getitem, h]
  · intro t h; simp [NpArrayDataset.getitem, h]
  · intro h; simp [NpArrayDataset.getitem, h]
  · intro t h; simp [NpArrayDataset.getitem, h]

/-- Witness for C4: a concrete two-element dataset with no transforms,
evaluated at index 0. -/
theorem getitem_adapts_arrays_witness :
    ((0 : Nat) < ([PyVal.nd [5], PyVal.nd [7]] : List PyVal).length) ∧
    (NpArrayDataset.getitem
        ⟨[PyVal.nd [5], PyVal.nd [7]], [PyVal.nd [1], PyVal.nd [0]], none, none⟩
        0 (by decide) (by decide)).1 = torch_tensor (PyVal.nd [5]) :=
  ⟨by decide,
    (getitem_adapts_arrays
      ⟨[PyVal.nd [5], PyVal.nd [7]], [PyVal.nd [1], PyVal.nd [0]], none, none⟩
      0 (by decide) (by decide)).1 rfl⟩

/-- C8: `__len__` returns the size of the first axis of the images array only;
even when the labels array is strictly shorter than the images array, the
reported length is the images count. -/
theorem len_ignores_labels (d : NpArrayDataset)
    (_h : d.labels.length < d.images.length) :
    d.len = d.images.length := rfl

/-- Witness for C8: a dataset with three images but a single label still
reports length three. -/
theorem len_ignores_labels_witness :
    ((([PyVal.nd [1]] : List PyVal).length < ([PyVal.nd [0], PyVal.nd [0], PyVal.nd [0]] : List PyVal).length) ∧
      NpArrayDataset.len
        ⟨[PyVal.nd [0], PyVal.nd [0], PyVal.nd [0]], [PyVal.nd [1]], none, none⟩ = 3) :=
  ⟨by decide,
    len_ignores_labels
      ⟨[PyVal.nd [0], PyVal.nd [0], PyVal.nd [0]], [PyVal.nd [1]], none, none⟩
      (by decide)⟩

/-- C9: reading an item never mutates the dataset: for every in-range index,
the object state after `__getitem__` has the same images array, labels array
and transform fields as before the call (transforms in this embedding are pure
Lean functions). -/
theorem getitem_leaves_dataset_unchanged (d : NpArrayDataset) (i : Nat)
    (hx : i < d.images.length) (hy : i < d.labels.length) :
    (d.getitemS i hx hy).2.images = d.images ∧
    (d.getitemS i hx hy).2.labels = d.labels ∧
    (d.getitemS i hx hy).2.image_transforms = d.image_transforms ∧
    (d.getitemS i hx hy).2.label_transforms = d.label_transforms :=
  ⟨rfl, rfl, rfl, rfl⟩

/-- Witness for C9: the concrete dataset of the C4 witness is unchanged by a
read at index 1. -/
theorem getitem_leaves_dataset_unchanged_witness :
    ((1 : Nat) < ([PyVal.nd [5], PyVal.nd [7]] : List PyVal).length) ∧
    (NpArrayDataset.getitemS
        ⟨[PyVal.nd [5], PyVal.nd [7]], [PyVal.nd [1], PyVal.nd [0]], none, none⟩
        1 (by decide) (by decide)).2.images = [PyVal.nd [5], PyVal.nd [7]] :=
  ⟨by decide,
    (getitem_leaves_dataset_unchanged
      ⟨[PyVal.nd [5], PyVal.nd [7]], [PyVal.nd [1], PyVal.nd [0]], none, none⟩
      1 (by decide) (by decide)).1⟩

/-- `background_indexes = np.where(trainval_labels == 0)` (source line 94): the
indices of the label array holding label 0. -/
def background_indexes (labels : List Nat) : List Nat :=
  (List.range labels.length).filter (fun i => labels.getD i 0 == 0)

/-- `foreground_indexes = np.where(trainval_labels == 1)` (source line 95): the
indices of the label array holding label 1. -/
def foreground_indexes (labels : List Nat) : List Nat :=
  (List.range labels.length).filter (fun i => labels.getD i 0 == 1)

theorem mem_background_indexes (labels : List Nat) (i : Nat) :
    i ∈ background_indexes labels ↔ i < labels.length ∧ labels.getD i 0 = 0 := by
  simp [background_indexes, List.mem_filter]

theorem mem_foreground_indexes (labels : List Nat) (i : Nat) :
    i ∈ foreground_indexes labels ↔ i < labels.length ∧ labels.getD i 0 = 1 := by
  simp [foreground_indexes, List.mem_filter]

/-- C7: when every label is 0 or 1, the background index set (`labels == 0`)
and the foreground index set (`labels == 1`) partition the indices of the
label array: every index is in exactly one of the two sets. -/
theorem background_foreground_partition (labels : List Nat)
    (hbin : ∀ l ∈ labels, l = 0 ∨ l = 1) (i : Nat) (hi : i < labels.length) :
    (i ∈ background_indexes labels ∧ i ∉ foreground_indexes labels) ∨
    (i ∈ foreground_indexes labels ∧ i ∉ background_indexes labels) := by
  have hmem : labels.getD i 0 ∈ labels := by
    rw [List.getD_eq_getElem labels 0 hi]
    exact labels.getElem_mem hi
  rcases hbin _ hmem with h0 | h1
  · left
    constructor
    · exact (mem_background_indexes labels i).mpr ⟨hi, h0⟩
    · intro hf
      have := ((mem_foreground_indexes labels i).mp hf).2
      omega
  · right
    constructor
    · exact (mem_foreground_indexes labels i).mpr ⟨hi, h1⟩
    · intro hb
      have := ((mem_background_indexes labels i).mp hb).2
      omega

/-- Witness for C7: on the concrete label array `[0, 1, 0]`, index 1 is a
foreground index and not a background index. -/
theorem background_foreground_partition_witness :
    (∀ l ∈ [0, 1, 0], l = 0 ∨ l = 1) ∧ (1 < ([0, 1, 0] : List Nat).length) ∧
    ((1 ∈ background_indexes [0, 1, 0] ∧ 1 ∉ foreground_indexes [0, 1, 0]) ∨
     (1 ∈ foreground_indexes [0, 1, 0] ∧ 1 ∉ background_indexes [0, 1, 0])) :=
  ⟨by decide, by decide,
    background_foreground_partition [0, 1, 0] (by decide) 1 (by decide)⟩

/-- Modelled from the spec: the split code itself is left blank in the
notebook (source lines 176-184 pass `images=...` for the student to fill in);
per the spec the train/validation split is performed once, stratified by
label, using 20% of the images as validation (source line 86).  Validation
takes 20% of each class's index list (the hint of source lines 94-95). -/
def validation_indexes (labels : List Nat) : List Nat :=
  (background_indexes labels).take ((background_indexes labels).length / 5) ++
    (foreground_indexes labels).take ((foreground_indexes labels).length / 5)

/-- Modelled from the spec: the complement of [validation_indexes] inside each
class's index list; training keeps the remaining 80% of each class. -/
def training_indexes (labels : List Nat) : List Nat :=
  (background_indexes labels).drop ((background_indexes labels).length / 5) ++
    (foreground_indexes labels).drop ((foreground_indexes labels).length / 5)

/-- The number of positive (foreground, label 1) examples among a list of
dataset indices. -/
def posCount (labels : List Nat) (idxs : List Nat) : Nat :=
  (idxs.filter (fun i => labels.getD i 0 == 1)).length

theorem posCount_append (labels xs ys : List Nat) :
    posCount labels (xs ++ ys) = posCount labels xs + posCount labels ys := by
  simp [posCount, List.filter_append]

theorem posCount_of_sublist_background (labels xs : List Nat)
    (h : List.Sublist xs (background_indexes labels)) :
    posCount labels xs = 0 := by
  have hnil : xs.filter (fun i => labels.getD i 0 == 1) = [] := by
    rw [List.filter_eq_nil_iff]
    intro i hi
    have hbg := (mem_background_indexes labels i).mp (h.subset hi)
    have h2 := hbg.2
    rw [List.getD_eq_getElem?_getD] at h2
    simp [h2]
  unfold posCount
  rw [hnil]
  rfl

theorem posCount_of_sublist_foreground (labels xs : List Nat)
    (h : List.Sublist xs (foreground_indexes labels)) :
    posCount labels xs = xs.length := by
  have hall : xs.filter (fun i => labels.getD i 0 == 1) = xs := by
    rw [List.filter_eq_self]
    intro i hi
    have hfg := (mem_foreground_indexes labels i).mp (h.subset hi)
    have h2 := hfg.2
    rw [List.getD_eq_getElem?_getD] at h2
    simp [h2]
  unfold posCount
  rw [hall]

theorem length_filter_add_length_filter (l : List Nat) (p q : Nat → Bool)
    (h : ∀ a ∈ l, (p a = true ↔ ¬ q a = true)) :
    (l.filter p).length + (l.filter q).length = l.length := by
  induction l with
  | nil => simp
  | cons a l ih =>
    have ha := h a (List.mem_cons_self a l)
    have hl : ∀ b ∈ l, (p b = true ↔ ¬ q b = true) := fun b hb =>
      h b (List.mem_cons_of_mem a hb)
    have ihl := ih hl
    cases hp : p a
    · have hq : q a = true := by
        cases hq : q a
        · rw [hp, hq] at ha; simp at ha
        · rfl
      simp [List.filter_cons, hp, hq]
      omega
    · have hq : q a = false := by
        cases hq : q a
        · rfl
        · rw [hp, hq] at ha; simp at ha
      simp [List.filter_cons, hp, hq]
      omega

/-- Under binary labels, the background and foreground index lists together
exhaust the index range. -/
theorem bg_fg_length_sum (labels : List Nat)
    (hbin : ∀ l ∈ labels, l = 0 ∨ l = 1) :
    (background_indexes labels).length + (foreground_indexes labels).length =
      labels.length := by
  have h : ∀ i ∈ List.range labels.length,
      ((labels.getD i 0 == 0) = true ↔ ¬ (labels.getD i 0 == 1) = true) := by
    intro i hi
    rw [List.mem_range] at hi
    have hmem : labels.getD i 0 ∈ labels := by
      rw [List.getD_eq_getElem labels 0 hi]
      exact labels.getElem_mem hi
    rcases hbin _ hmem with h0 | h0 <;> rw [h0] <;> decide
  have hsum := length_filter_add_length_filter (List.range labels.length)
    (fun i => labels.getD i 0 == 0) (fun i => labels.getD i 0 == 1) h
  simpa [background_indexes, foreground_indexes] using hsum

theorem posCount_range (labels : List Nat) :
    posCount labels (List.range labels.length) =
      (foreground_indexes labels).length := rfl

theorem ratio_core_val (b' f' rb rf : ℤ) (hb0 : 0 ≤ b') (hf0 : 0 ≤ f')
    (hrb0 : 0 ≤ rb) (hrb4 : rb ≤ 4) (hrf0 : 0 ≤ rf) (hrf4 : rf ≤ 4) :
    |f' * ((5 * b' + rb) + (5 * f' + rf)) - (5 * f' + rf) * (b' + f')| ≤
      4 * (b' + f') := by
  have key : f' * ((5 * b' + rb) + (5 * f' + rf)) - (5 * f' + rf) * (b' + f') =
      f' * rb - b' * rf := by ring
  rw [key, abs_le]
  have h1 : f' * rb ≤ f' * 4 := mul_le_mul_of_nonneg_left hrb4 hf0
  have h2 : b' * rf ≤ b' * 4 := mul_le_mul_of_nonneg_left hrf4 hb0
  have h3 : 0 ≤ f' * rb := mul_nonneg hf0 hrb0
  have h4 : 0 ≤ b' * rf := mul_nonneg hb0 hrf0
  constructor <;> linarith

theorem ratio_core_train (b' f' rb rf : ℤ) (hb0 : 0 ≤ b') (hf0 : 0 ≤ f')
    (hrb0 : 0 ≤ rb) (hrb4 : rb ≤ 4) (hrf0 : 0 ≤ rf) (hrf4 : rf ≤ 4) :
    |(4 * f' + rf) * ((5 * b' + rb) + (5 * f' + rf)) -
        (5 * f' + rf) * ((4 * b' + rb) + (4 * f' + rf))| ≤
      4 * ((4 * b' + rb) + (4 * f' + rf)) := by
  have key : (4 * f' + rf) * ((5 * b' + rb) + (5 * f' + rf)) -
      (5 * f' + rf) * ((4 * b' + rb) + (4 * f' + rf)) =
      b' * rf - f' * rb := by ring
  rw [key, abs_le]
  have h1 : f' * rb ≤ f' * 4 := mul_le_mul_of_nonneg_left hrb4 hf0
  have h2 : b' * rf ≤ b' * 4 := mul_le_mul_of_nonneg_left hrf4 hb0
  have h3 : 0 ≤ f' * rb := mul_nonneg hf0 hrb0
  have h4 : 0 ≤ b' * rf := mul_nonneg hb0 hrf0
  constructor <;> linarith

/-- C2: the stratified split preserves the class ratio in both partitions:
for every binary label array, each of the training and validation index lists
carries a positive fraction within 4 / (number of labels) of the overall
positive fraction (stated as an integer cross-multiplied bound). -/
theorem stratified_split_preserves_ratio (labels : List Nat)
    (hbin : ∀ l ∈ labels, l = 0 ∨ l = 1) :
    ∀ part ∈ [training_indexes labels, validation_indexes labels],
      |(posCount labels part : ℤ) * labels.length -
        (posCount labels (List.range labels.length) : ℤ) * part.length| ≤
        4 * part.length := by
  intro part hpart
  have hN : (background_indexes labels).length +
      (foreground_indexes labels).length = labels.length :=
    bg_fg_length_sum labels hbin
  set B := (background_indexes labels).length with hBdef
  set F := (foreground_indexes labels).length with hFdef
  have hb5 : B / 5 ≤ B := Nat.div_le_self B 5
  have hf5 : F / 5 ≤ F := Nat.div_le_self F 5
  have hval_pos : posCount labels (validation_indexes labels) = F / 5 := by
    rw [validation_indexes, posCount_append,
      posCount_of_sublist_background labels _ (List.take_sublist _ _),
      posCount_of_sublist_foreground labels _ (List.take_sublist _ _)]
    simp [List.length_take, ← hFdef, Nat.min_eq_left hf5]
  have hval_len : (validation_indexes labels).length = B / 5 + F / 5 := by
    rw [validation_indexes]
    simp [List.length_take, ← hBdef, ← hFdef, Nat.min_eq_left hb5,
      Nat.min_eq_left hf5]
  have htrain_pos : posCount labels (training_indexes labels) = F - F / 5 := by
    rw [training_indexes, posCount_append,
      posCount_of_sublist_background labels _ (List.drop_sublist _ _),
      posCount_of_sublist_foreground labels _ (List.drop_sublist _ _)]
    simp [List.length_drop, ← hFdef]
  have htrain_len : (training_indexes labels).length =
      (B - B / 5) + (F - F / 5) := by
    rw [training_indexes]
    simp [List.length_drop, ← hBdef, ← hFdef]
  have hb0 : (0 : ℤ) ≤ ((B / 5 : ℕ) : ℤ) := Int.ofNat_nonneg _
  have hf0 : (0 : ℤ) ≤ ((F / 5 : ℕ) : ℤ) := Int.ofNat_nonneg _
  have hrb0 : (0 : ℤ) ≤ ((B % 5 : ℕ) : ℤ) := Int.ofNat_nonneg _
  have hrf0 : (0 : ℤ) ≤ ((F % 5 : ℕ) : ℤ) := Int.ofNat_nonneg _
  have hrb4 : ((B % 5 : ℕ) : ℤ) ≤ 4 := by omega
  have hrf4 : ((F % 5 : ℕ) : ℤ) ≤ 4 := by omega
  have eF : (F : ℤ) = 5 * ((F / 5 : ℕ) : ℤ) + ((F % 5 : ℕ) : ℤ) := by omega
  have eBF : ((B + F : ℕ) : ℤ) =
      (5 * ((B / 5 : ℕ) : ℤ) + ((B % 5 : ℕ) : ℤ)) +
        (5 * ((F / 5 : ℕ) : ℤ) + ((F % 5 : ℕ) : ℤ)) := by omega
  rcases List.mem_pair.mp hpart with hp | hp <;> subst hp
  · rw [htrain_pos, htrain_len, posCount_range, ← hFdef, ← hN]
    have eFu : ((F - F / 5 : ℕ) : ℤ) =
        4 * ((F / 5 : ℕ) : ℤ) + ((F % 5 : ℕ) : ℤ) := by omega
    have eSum : (((B - B / 5) + (F - F / 5) : ℕ) : ℤ) =
        (4 * ((B / 5 : ℕ) : ℤ) + ((B % 5 : ℕ) : ℤ)) +
          (4 * ((F / 5 : ℕ) : ℤ) + ((F % 5 : ℕ) : ℤ)) := by omega
    rw [eFu, eBF, eSum, eF]
    exact ratio_core_train _ _ _ _ hb0 hf0 hrb0 hrb4 hrf0 hrf4
  · rw [hval_pos, hval_len, posCount_range, ← hFdef, ← hN]
    have eSum : ((B / 5 + F / 5 : ℕ) : ℤ) =
        ((B / 5 : ℕ) : ℤ) + ((F / 5 : ℕ) : ℤ) := by omega
    rw [eBF, eSum, eF]
    exact ratio_core_val _ _ _ _ hb0 hf0 hrb0 hrb4 hrf0 hrf4

/-- Witness for C2: the concrete binary label array with five background and
five foreground labels; the validation partition carries one positive out of
two indices, matching the overall one-in-two ratio within the stated bound. -/
theorem stratified_split_preserves_ratio_witness :
    (∀ l ∈ ([0, 0, 0, 0, 0, 1, 1, 1, 1, 1] : List Nat), l = 0 ∨ l = 1) ∧
    (validation_indexes [0, 0, 0, 0, 0, 1, 1, 1, 1, 1] ∈
      [training_indexes [0, 0, 0, 0, 0, 1, 1, 1, 1, 1],
        validation_indexes [0, 0, 0, 0, 0, 1, 1, 1, 1, 1]]) ∧
    |(posCount [0, 0, 0, 0, 0, 1, 1, 1, 1, 1]
        (validation_indexes [0, 0, 0, 0, 0, 1, 1, 1, 1, 1]) : ℤ) *
        ([0, 0, 0, 0, 0, 1, 1, 1, 1, 1] : List Nat).length -
      (posCount [0, 0, 0, 0, 0, 1, 1, 1, 1, 1]
        (List.range ([0, 0, 0, 0, 0, 1, 1, 1, 1, 1] : List Nat).length) : ℤ) *
        (validation_indexes [0, 0, 0, 0, 0, 1, 1, 1, 1, 1]).length| ≤
      4 * (validation_indexes [0, 0, 0, 0, 0, 1, 1, 1, 1, 1]).length :=
  ⟨by decide, by decide,
    stratified_split_preserves_ratio [0, 0, 0, 0, 0, 1, 1, 1, 1, 1]
      (by decide) _ (by decide)⟩

/-- The metrics dictionary an evaluator exposes after a run (source lines
279-283): classification accuracy and the nll loss.  (The confusion matrix is
not consumed by any handler modelled here.) -/
structure Metrics where
  accuracy : ℚ
  nll : ℚ
deriving DecidableEq, Repr

/-- The early-stopping score function (source lines 308-310): reads the
engine's "nll" metric and returns its negation. -/
def score_function (engineMetrics : Metrics) : ℚ :=
  -(engineMetrics.nll)

/-- The running state of the early-stopping handler. -/
structure EarlyStoppingState where
  patience : Nat
  bestScore : Option ℚ
  counter : Nat
  terminated : Bool
deriving DecidableEq, Repr

/-- Modelled from the spec: `ignite.handlers.EarlyStopping` is an external
library handler, not code of this repository; per the spec it halts training
"when a monitored validation metric stops improving for a set number of
evaluation rounds".  Each call compares the score with the best score seen: a
non-improving score increments a counter and terminates the trainer once the
counter reaches `patience`; an improving score becomes the new best and resets
the counter. -/
def earlyStopStep (s : EarlyStoppingState) (score : ℚ) : EarlyStoppingState :=
  match s.bestScore with
  | none => { s with bestScore := some score }
  | some best =>
    if score ≤ best then
      { s with counter := s.counter + 1,
               terminated := s.terminated || decide (s.patience ≤ s.counter + 1) }
    else
      { s with bestScore := some score, counter := 0 }

/-- The handler as constructed at source line 313: fresh state with the given
patience (10 in the notebook), no best score, counter zero, trainer running. -/
def earlyStopInit (patience : Nat) : EarlyStoppingState :=
  { patience := patience, bestScore := none, counter := 0, terminated := false }

/-- A run of the handler over the successive completions of the validation
evaluator (source line 315 registers it on Events.COMPLETED): each completion
feeds the evaluator's metrics through [score_function]. -/
def earlyStopRun (patience : Nat) (evals : List Metrics) : EarlyStoppingState :=
  evals.foldl (fun s m => earlyStopStep s (score_function m)) (earlyStopInit patience)

theorem earlyStopStep_patience (s : EarlyStoppingState) (x : ℚ) :
    (earlyStopStep s x).patience = s.patience := by
  rcases s with ⟨p, b, c, t⟩
  cases b
  · rfl
  · unfold earlyStopStep
    dsimp
    split <;> rfl

theorem earlyStopStep_terminated (s : EarlyStoppingState) (x : ℚ)
    (h : s.terminated = true) : (earlyStopStep s x).terminated = true := by
  rcases s with ⟨p, b, c, t⟩
  cases b
  · exact h
  · unfold earlyStopStep
    dsimp
    split
    · dsimp at h
      simp [h]
    · exact h

theorem earlyStopFold_terminated (evals : List Metrics) (s : EarlyStoppingState)
    (h : s.terminated = true) :
    (evals.foldl (fun t m => earlyStopStep t (score_function m)) s).terminated =
      true := by
  induction evals generalizing s with
  | nil => exact h
  | cons m ms ih => exact ih _ (earlyStopStep_terminated _ _ h)

theorem earlyStopFold_patience (evals : List Metrics) (s : EarlyStoppingState) :
    (evals.foldl (fun t m => earlyStopStep t (score_function m)) s).patience =
      s.patience := by
  induction evals generalizing s with
  | nil => rfl
  | cons m ms ih => rw [List.foldl_cons, ih, earlyStopStep_patience]

theorem earlyStop_window : ∀ (w : List Metrics) (s : EarlyStoppingState) (b : ℚ),
    s.patience = 10 → s.bestScore = some b → (∀ m ∈ w, score_function m ≤ b) →
    1 ≤ w.length → 10 ≤ s.counter + w.length →
    (w.foldl (fun t m => earlyStopStep t (score_function m)) s).terminated =
      true := by
  intro w
  induction w with
  | nil =>
    intro s b _ _ _ hlen _
    simp at hlen
  | cons m ms ih =>
    intro s b hpat hbest hsc hlen hcount
    have hm : score_function m ≤ b := hsc m (List.mem_cons_self m ms)
    have hstep : earlyStopStep s (score_function m) =
        { patience := s.patience, bestScore := some b, counter := s.counter + 1,
          terminated := s.terminated || decide (s.patience ≤ s.counter + 1) } := by
      rcases s with ⟨p, bs, c, t⟩
      dsimp at hbest
      subst hbest
      unfold earlyStopStep
      dsimp
      rw [if_pos hm]
    rw [List.foldl_cons, hstep]
    rw [List.length_cons] at hcount
    by_cases hterm : 10 ≤ s.counter + 1
    · apply earlyStopFold_terminated
      simp [hpat, hterm]
    · apply ih _ b
      · exact hpat
      · rfl
      · exact fun x hx => hsc x (List.mem_cons_of_mem m hx)
      · omega
      · show 10 ≤ s.counter + 1 + ms.length
        omega

/-- C1: the handler's score function is the negation of the validation "nll"
metric, and for every run in which, after some prefix of validation-evaluator
completions establishing a best score, the score fails to improve on it for 10
consecutive completions, the trainer is terminated (and stays terminated for
the rest of the run). -/
theorem early_stopping_halts_training (pre w post : List Metrics) (b : ℚ)
    (hbest : (earlyStopRun 10 pre).bestScore = some b)
    (hlen : w.length = 10)
    (hfail : ∀ m ∈ w, score_function m ≤ b) :
    (∀ m : Metrics, score_function m = -(m.nll)) ∧
    (earlyStopRun 10 (pre ++ (w ++ post))).terminated = true := by
  refine ⟨fun m => rfl, ?_⟩
  unfold earlyStopRun at hbest ⊢
  rw [List.foldl_append, List.foldl_append]
  apply earlyStopFold_terminated
  apply earlyStop_window w _ b
  · rw [earlyStopFold_patience]
    rfl
  · exact hbest
  · exact hfail
  · omega
  · omega

/-- Witness for C1: a run whose first validation loss is 1 (best score -1)
followed by ten evaluations with the same loss: the score never improves and
the trainer is terminated. -/
theorem early_stopping_halts_training_witness :
    (earlyStopRun 10 [⟨0, 1⟩]).bestScore = some (-1) ∧
    (List.replicate 10 (⟨0, 1⟩ : Metrics)).length = 10 ∧
    (∀ m ∈ List.replicate 10 (⟨0, 1⟩ : Metrics), score_function m ≤ -1) ∧
    (earlyStopRun 10 ([⟨0, 1⟩] ++ (List.replicate 10 (⟨0, 1⟩ : Metrics) ++ []))).terminated = true :=
  ⟨by decide, by decide, by decide,
    (early_stopping_halts_training [⟨0, 1⟩] (List.replicate 10 ⟨0, 1⟩) [] (-1)
      (by decide) (by decide) (by decide)).2⟩

/-- The history dictionaries and epoch list (source lines 318-320): all start
empty. -/
structure TrainingHistory where
  trainAccuracy : List ℚ
  trainLoss : List ℚ
  valAccuracy : List ℚ
  valLoss : List ℚ
  last_epoch : List Nat
deriving DecidableEq, Repr

def initHistory : TrainingHistory := ⟨[], [], [], [], []⟩

/-- `log_training_results` (source lines 323-336): run the train evaluator,
read its metrics, append 0 to `last_epoch`, and append accuracy*100 and the
nll loss to the training history lists. -/
def log_training_results (m : Metrics) (h : TrainingHistory) : TrainingHistory :=
  { h with last_epoch := h.last_epoch ++ [0],
           trainAccuracy := h.trainAccuracy ++ [m.accuracy * 100],
           trainLoss := h.trainLoss ++ [m.nll] }

/-- `log_validation_results` (source lines 339-351): run the validation
evaluator, read its metrics, and append accuracy*100 and the nll loss to the
validation history lists. -/
def log_validation_results (m : Metrics) (h : TrainingHistory) : TrainingHistory :=
  { h with valAccuracy := h.valAccuracy ++ [m.accuracy * 100],
           valLoss := h.valLoss ++ [m.nll] }

/-- On each EPOCH_COMPLETED event the trainer runs the two logging handlers in
registration order (source lines 323 and 339). -/
def epochCompletedLog (trainM valM : Metrics) (h : TrainingHistory) :
    TrainingHistory :=
  log_validation_results valM (log_training_results trainM h)

/-- The history state after `n` completed epochs, where `trainM k` and
`valM k` are the metrics the two evaluators report at epoch `k`. -/
def historyRun (trainM valM : Nat → Metrics) (n : Nat) : TrainingHistory :=
  (List.range n).foldl
    (fun h k => epochCompletedLog (trainM k) (valM k) h) initHistory

/-- C10: each completed epoch appends exactly one entry to each of the four
history lists, so after any number `n` of completed epochs the four lists all
have length `n`. -/
theorem history_lists_equal_length (trainM valM : Nat → Metrics) (n : Nat) :
    (historyRun trainM valM n).trainAccuracy.length = n ∧
    (historyRun trainM valM n).trainLoss.length = n ∧
    (historyRun trainM valM n).valAccuracy.length = n ∧
    (historyRun trainM valM n).valLoss.length = n := by
  induction n with
  | zero => exact ⟨rfl, rfl, rfl, rfl⟩
  | succ k ih =>
    obtain ⟨h1, h2, h3, h4⟩ := ih
    have hstep : historyRun trainM valM (k + 1) =
        epochCompletedLog (trainM k) (valM k) (historyRun trainM valM k) := by
      unfold historyRun
      rw [List.range_succ, List.foldl_append]
      rfl
    rw [hstep]
    simp [epochCompletedLog, log_validation_results, log_training_results,
      h1, h2, h3, h4]

/-- Configuration of the checkpoint handler as constructed at source lines
297-304: directory "./saved_models", the `filename_prefix` keyword set from
`dataset_name` ("aircrafts", source line 274), keeping 2 saves, creating the
directory if absent, and saving the model as a state dict. -/
structure ModelCheckpoint where
  dirname : String
  prefixName : String
  n_saved : Nat
  create_dir : Bool
  save_as_state_dict : Bool
  require_empty : Bool
deriving DecidableEq, Repr

def checkpointer : ModelCheckpoint :=
  { dirname := "./saved_models", prefixName := "aircrafts", n_saved := 2,
    create_dir := true, save_as_state_dict := true, require_empty := false }

/-- Modelled from the spec: checkpoint filenames are derived from the
configured prefix and the model's registered name (the key of the dict passed
at source line 305), tagged with the epoch of the save. -/
def checkpointFilename (c : ModelCheckpoint) (name : String) (epoch : Nat) :
    String :=
  c.prefixName ++ "_" ++ name ++ "_" ++ toString epoch ++ ".pt"

/-- The state of the local checkpoint directory: whether it exists, and the
saved checkpoint files, most recent first. -/
structure CheckpointDir where
  dirExists : Bool
  saved : List String
deriving DecidableEq, Repr

/-- Modelled from the spec: `ignite.handlers.ModelCheckpoint` is an external
library handler, not code of this repository; per the spec each call saves the
model's state dict into the local directory (creating it if absent, as
`create_dir` requests) and retains at most the `n_saved` most recent
checkpoints. -/
def checkpointSave (c : ModelCheckpoint) (name : String) (epoch : Nat)
    (d : CheckpointDir) : CheckpointDir :=
  { dirExists := d.dirExists || c.create_dir,
    saved := (checkpointFilename c name epoch :: d.saved).take c.n_saved }

/-- The checkpoint directory after `n` completed epochs: the trainer fires the
checkpointer on every EPOCH_COMPLETED event (source line 305), starting from a
missing directory. -/
def checkpointRun (c : ModelCheckpoint) (name : String) (n : Nat) :
    CheckpointDir :=
  (List.range n).foldl (fun d k => checkpointSave c name (k + 1) d) ⟨false, []⟩

theorem take_cons_take (x : String) (l : List String) (t : Nat) :
    (x :: l.take t).take t = (x :: l).take t := by
  cases t with
  | zero => rfl
  | succ s =>
    simp [List.take_succ_cons, List.take_take, Nat.min_eq_left (Nat.le_succ s)]

theorem checkpointRun_saved (c : ModelCheckpoint) (name : String) (n : Nat) :
    (checkpointRun c name n).saved =
      ((List.range n).reverse.map
        (fun k => checkpointFilename c name (k + 1))).take c.n_saved := by
  induction n with
  | zero => simp [checkpointRun]
  | succ k ih =>
    have hstep : checkpointRun c name (k + 1) =
        checkpointSave c name (k + 1) (checkpointRun c name k) := by
      unfold checkpointRun
      rw [List.range_succ, List.foldl_append]
      rfl
    rw [hstep]
    show (checkpointFilename c name (k + 1) ::
        (checkpointRun c name k).saved).take c.n_saved = _
    rw [ih, take_cons_take, List.range_succ]
    simp

theorem checkpointRun_dirExists (name : String) (n : Nat) :
    (checkpointRun checkpointer name n).dirExists = decide (0 < n) := by
  induction n with
  | zero => rfl
  | succ k _ =>
    have hstep : checkpointRun checkpointer name (k + 1) =
        checkpointSave checkpointer name (k + 1)
          (checkpointRun checkpointer name k) := by
      unfold checkpointRun
      rw [List.range_succ, List.foldl_append]
      rfl
    rw [hstep]
    simp [checkpointSave, checkpointer]

/-- C3: for every number of completed epochs, the checkpoint state of the
configured handler is: the local directory "./saved_models" exists as soon as
one save happened, the saved files are the checkpoints of the most recent (at
most 2) epochs, every saved filename is derived from the configured prefix and
the model's registered name, and at most 2 checkpoints are retained. -/
theorem checkpointer_retains_two_most_recent (name : String) (n : Nat) :
    (checkpointRun checkpointer name n).saved =
      ((List.range n).reverse.map
        (fun k => checkpointFilename checkpointer name (k + 1))).take 2 ∧
    (checkpointRun checkpointer name n).saved.length ≤ 2 ∧
    (∀ f ∈ (checkpointRun checkpointer name n).saved,
      ∃ e, f = checkpointFilename checkpointer name e) ∧
    checkpointer.dirname = "./saved_models" ∧
    (checkpointRun checkpointer name n).dirExists = decide (0 < n) := by
  have hsaved := checkpointRun_saved checkpointer name n
  refine ⟨hsaved, ?_, ?_, rfl, checkpointRun_dirExists name n⟩
  · rw [hsaved]
    exact le_trans (List.length_take_le _ _) (le_refl 2)
  · intro f hf
    rw [hsaved] at hf
    have hf2 := List.mem_of_mem_take hf
    rw [List.mem_map] at hf2
    obtain ⟨k, _, hk⟩ := hf2
    exact ⟨k + 1, hk.symm⟩

/-- A Python hyperparameter slot in `model_fn`: a concrete number, or the
`...` (Ellipsis) placeholder left for the student to fill in. -/
inductive Param where
  | nat (n : Nat)
  | ellipsis
deriving DecidableEq, Repr

/-- A constructed torch layer. -/
inductive Layer where
  | conv2d (in_channels out_channels kernel_size padding : Nat)
  | batchNorm2d (num_features : Nat)
  | relu
  | maxPool2d (kernel_size : Nat)
  | flatten
  | linear (in_features out_features : Nat)
  | batchNorm1d (num_features : Nat)
  | dropout (p : ℚ)
  | logSoftmax (dim : Int)
deriving DecidableEq, Repr

/-- Modelled from the spec: the torch layer constructors are external to this
repository; per the spec, failures from the incomplete architecture blanks are
raised by the underlying library's constructors.  A numeric argument that is
the Ellipsis placeholder raises a TypeError. -/
def asNatArg : Param → Except String Nat
  | .nat n => .ok n
  | .ellipsis => .error "TypeError: ellipsis is not an int"

def nnConv2d (in_channels out_channels kernel_size padding : Param) :
    Except String Layer := do
  return Layer.conv2d (← asNatArg in_channels) (← asNatArg out_channels)
    (← asNatArg kernel_size) (← asNatArg padding)

def nnBatchNorm2d (num_features : Param) : Except String Layer := do
  return Layer.batchNorm2d (← asNatArg num_features)

def nnReLU : Except String Layer := .ok .relu

def nnMaxPool2d (kernel_size : Param) : Except String Layer := do
  return Layer.maxPool2d (← asNatArg kernel_size)

def nnFlatten : Except String Layer := .ok .flatten

def nnLinear (in_features out_features : Param) : Except String Layer := do
  return Layer.linear (← asNatArg in_features) (← asNatArg out_features)

def nnBatchNorm1d (num_features : Param) : Except String Layer := do
  return Layer.batchNorm1d (← asNatArg num_features)

def nnDropout (p : ℚ) : Except String Layer := .ok (.dropout p)

def nnLogSoftmax (dim : Int) : Except String Layer := .ok (.logSoftmax dim)

/-- `nn.Sequential` over the constructor results, in source order: the first
constructor error propagates unchanged to the caller (no layer after it is
consumed, and nothing catches the error). -/
def nnSequential : List (Except String Layer) → Except String (List Layer)
  | [] => .ok []
  | l :: ls => do
    let x ← l
    let xs ← nnSequential ls
    return x :: xs

/-- `model_fn` (source lines 196-247): the convolutional network template,
with the `...` blanks exactly where the source leaves them (the second conv's
in_channels; two later conv in_channels; one BatchNorm2d size; one conv
in_channels; the first Linear in_features; two BatchNorm1d sizes). -/
def model_fn (num_classes : Nat := 2) : Except String (List Layer) :=
  nnSequential
    [nnConv2d (.nat 3) (.nat 32) (.nat 3) (.nat 1),
     nnBatchNorm2d (.nat 32),
     nnReLU,
     nnConv2d .ellipsis (.nat 32) (.nat 3) (.nat 1),
     nnBatchNorm2d (.nat 32),
     nnReLU,
     nnMaxPool2d (.nat 2),
     nnConv2d (.nat 32) (.nat 64) (.nat 3) (.nat 1),
     nnBatchNorm2d (.nat 64),
     nnReLU,
     nnConv2d (.nat 64) (.nat 64) (.nat 3) (.nat 1),
     nnBatchNorm2d (.nat 64),
     nnReLU,
     nnMaxPool2d (.nat 2),
     nnConv2d .ellipsis (.nat 128) (.nat 3) (.nat 1),
     nnBatchNorm2d (.nat 128),
     nnReLU,
     nnConv2d .ellipsis (.nat 128) (.nat 3) (.nat 1),
     nnBatchNorm2d (.nat 128),
     nnReLU,
     nnMaxPool2d (.nat 2),
     nnConv2d (.nat 128) (.nat 128) (.nat 3) (.nat 1),
     nnBatchNorm2d (.nat 128),
     nnReLU,
     nnConv2d .ellipsis (.nat 128) (.nat 3) (.nat 1),
     nnBatchNorm2d .ellipsis,
     nnReLU,
     nnMaxPool2d (.nat 2),
     nnFlatten,
     nnLinear .ellipsis (.nat 256),
     nnBatchNorm1d .ellipsis,
     nnReLU,
     nnDropout (10 / 100),
     nnLinear (.nat 256) (.nat 64),
     nnBatchNorm1d .ellipsis,
     nnReLU,
     nnDropout (10 / 100),
     nnLinear (.nat 64) (.nat num_classes),
     nnLogSoftmax (-1)]

/-- C6: calling `model_fn` with its placeholder (Ellipsis) hyperparameters
produces an error raised by a layer constructor (the first blanked Conv2d),
and that error propagates unchanged to the caller: the result of `model_fn` is
exactly the constructor's error, for the default and for every other
`num_classes`; no code catches, retries or transforms it. -/
theorem model_fn_propagates_blank_errors :
    ∃ e : String,
      nnConv2d Param.ellipsis (Param.nat 32) (Param.nat 3) (Param.nat 1) =
        Except.error e ∧
      model_fn 2 = Except.error e ∧
      ∀ num_classes, model_fn num_classes = Except.error e :=
  ⟨"TypeError: ellipsis is not an int", rfl, rfl, fun _ => rfl⟩

/-- The notebook's global state: the four dataset arrays loaded at source
lines 60-63, the split index hints, the dataset wrappers, and the
training-loop state (histories, checkpoint directory, early-stopping
handler). -/
structure NotebookState where
  trainval_images : List PyVal
  trainval_labels : List Nat
  test_images : List PyVal
  test_labels : List Nat
  bgIdx : List Nat
  fgIdx : List Nat
  train_set : Option NpArrayDataset
  validation_set : Option NpArrayDataset
  history : TrainingHistory
  checkpoints : CheckpointDir
  earlyStop : EarlyStoppingState

/-- The splitting cell (source lines 94-95): computes the two index hints from
the trainval labels; it reads only `trainval_labels`. -/
def splitCell (s : NotebookState) : NotebookState :=
  { s with bgIdx := background_indexes s.trainval_labels,
           fgIdx := foreground_indexes s.trainval_labels }

/-- The dataset-construction cell (source lines 176-185).  Modelled from the
spec where the source leaves `images=...` blanks: the training and validation
sets are built from trainval-derived selections of the trainval arrays along
the split index lists; the test arrays are not passed. -/
def datasetCell (s : NotebookState) : NotebookState :=
  { s with
    train_set := some
      { images := (training_indexes s.trainval_labels).map
          (fun i => s.trainval_images.getD i (PyVal.nd [])),
        labels := (training_indexes s.trainval_labels).map
          (fun i => PyVal.nd [s.trainval_labels.getD i 0]),
        image_transforms := none, label_transforms := none },
    validation_set := some
      { images := (validation_indexes s.trainval_labels).map
          (fun i => s.trainval_images.getD i (PyVal.nd [])),
        labels := (validation_indexes s.trainval_labels).map
          (fun i => PyVal.nd [s.trainval_labels.getD i 0]),
        image_transforms := none, label_transforms := none } }

/-- One epoch of the training loop (source lines 276-351): the trainer
consumes the train loader, then the EPOCH_COMPLETED handlers fire the
checkpointer and the two logging handlers, and the validation evaluator's
completion feeds the early-stopping handler.  The evaluators consume only the
trainval-derived loaders, so their metrics are a function of the train and
validation sets alone. -/
def epochCell (metricsOf : Option NpArrayDataset → Metrics) (mname : String)
    (epoch : Nat) (s : NotebookState) : NotebookState :=
  { s with
    checkpoints := checkpointSave checkpointer mname epoch s.checkpoints,
    history := epochCompletedLog (metricsOf s.train_set)
      (metricsOf s.validation_set) s.history,
    earlyStop := earlyStopStep s.earlyStop
      (score_function (metricsOf s.validation_set)) }

/-- `n` epochs of the training loop. -/
def runTraining (metricsOf : Option NpArrayDataset → Metrics) (mname : String)
    (n : Nat) (s : NotebookState) : NotebookState :=
  (List.range n).foldl (fun t k => epochCell metricsOf mname (k + 1) t) s

/-- The notebook cells from the split through `n` training epochs, in source
order. -/
def runPipeline (metricsOf : Option NpArrayDataset → Metrics) (mname : String)
    (n : Nat) (s : NotebookState) : NotebookState :=
  runTraining metricsOf mname n (datasetCell (splitCell s))

theorem runTraining_test_comm (metricsOf : Option NpArrayDataset → Metrics)
    (mname : String) (n : Nat) (s : NotebookState) (ti : List PyVal)
    (tl : List Nat) :
    runTraining metricsOf mname n
        { s with test_images := ti, test_labels := tl } =
      { runTraining metricsOf mname n s with
          test_images := ti, test_labels := tl } := by
  induction n with
  | zero => rfl
  | succ k ih =>
    have hstep : ∀ t : NotebookState, runTraining metricsOf mname (k + 1) t =
        epochCell metricsOf mname (k + 1) (runTraining metricsOf mname k t) := by
      intro t
      unfold runTraining
      rw [List.range_succ, List.foldl_append]
      rfl
    rw [hstep, hstep, ih]
    rfl

/-- C5: the test partition is neither read nor modified before final
evaluation: for every starting state, running the pipeline (split, dataset
construction, and any number of training epochs with checkpointing, logging
and early stopping) leaves `test_images` and `test_labels` unchanged, and the
whole resulting state is independent of the content of the test arrays (the
run over a state with any other test arrays differs from the original run
exactly in those two fields). -/
theorem test_partition_untouched (metricsOf : Option NpArrayDataset → Metrics)
    (mname : String) (n : Nat) (s : NotebookState) (ti : List PyVal)
    (tl : List Nat) :
    (runPipeline metricsOf mname n s).test_images = s.test_images ∧
    (runPipeline metricsOf mname n s).test_labels = s.test_labels ∧
    runPipeline metricsOf mname n
        { s with test_images := ti, test_labels := tl } =
      { runPipeline metricsOf mname n s with
          test_images := ti, test_labels := tl } := by
  have hcomm : ∀ (u : NotebookState) (a : List PyVal) (b : List Nat),
      runPipeline metricsOf mname n
          { u with test_images := a, test_labels := b } =
        { runPipeline metricsOf mname n u with
            test_images := a, test_labels := b } := by
    intro u a b
    unfold runPipeline
    have hcells : datasetCell (splitCell
        { u with test_images := a, test_labels := b }) =
        { datasetCell (splitCell u) with test_images := a, test_labels := b } :=
      rfl
    rw [hcells, runTraining_test_comm]
  have h := hcomm s s.test_images s.test_labels
  have hself : ({ s with
      test_images := s.test_images,
      test_labels := s.test_labels } : NotebookState) = s := rfl
  rw [hself] at h
  exact ⟨(congrArg NotebookState.test_images h).trans rfl,
    (congrArg NotebookState.test_labels h).trans rfl, hcomm s ti tl⟩

end ClassImbalance
